import Mathlib

/-!
Verification development for the SkladBot repository: a shallow embedding of
the phone normalization, the database-backed TTL cache, the MoySklad lookup
service, the Telegram rate limiter, and the daily debt-reminder sweep,
together with theorems settling the specification claims.
-/

/-! ## Phone normalization (src/models/User.js, userSchema.statics.normalizePhone) -/

/-- Digits remaining after the JS `phone.replace(/\D/g, "")` step. -/
def digitsOf (phone : String) : List Char :=
  phone.toList.filter (fun c => c.isDigit)

/-- Embedding of `userSchema.statics.normalizePhone`: strip non-digits, then
prepend a plus when the digits begin with 998, prepend the full prefix when
exactly nine digits remain, and otherwise prepend a plus (the digit string
never begins with a plus, so the final branch is unreachable). -/
def User.normalizePhone (phone : String) : String :=
  if (digitsOf phone).take 3 = ['9', '9', '8'] then
    String.mk ('+' :: digitsOf phone)
  else if (digitsOf phone).length = 9 then
    String.mk ('+' :: '9' :: '9' :: '8' :: digitsOf phone)
  else if ¬ ((digitsOf phone).take 1 = ['+']) then
    String.mk ('+' :: digitsOf phone)
  else
    String.mk (digitsOf phone)

/-- Character class used by the spec for phone inputs: digits, spaces,
dashes, parentheses, and the plus sign. -/
def allowedPhoneChar (c : Char) : Bool :=
  c.isDigit || c == ' ' || c == '-' || c == '(' || c == ')' || c == '+'

/-- The regex `^\+998\d{9}$` from the registration handler, as a Boolean
predicate: thirteen characters, beginning with `+998`, then nine digits. -/
def matchesUzPhone (s : String) : Bool :=
  (s.toList.length == 13) && (s.toList.take 4 == ['+', '9', '9', '8'])
    && (s.toList.drop 4).all (fun c => c.isDigit)

/-! ## TTL cache (src/models/Cache.js) -/

/-- One cache document: payload, expiry timestamp and creation timestamp
(all times in milliseconds since the epoch, as JS `Date.now()`). -/
structure CacheEntry (α : Type) where
  data : α
  expiresAt : Nat
  createdAt : Nat
deriving DecidableEq

/-- The cache collection, keyed by the unique `key` field. -/
abbrev CacheSt (α : Type) := String → Option (CacheEntry α)

/-- The empty cache collection. -/
def Cache.emptySt (α : Type) : CacheSt α := fun _ => none

/-- Embedding of `cacheSchema.statics.get`: `findOne({key, expiresAt: {$gt: now}})`,
returning the payload only when the expiry is strictly in the future. -/
def Cache.get {α : Type} (st : CacheSt α) (key : String) (now : Nat) : Option α :=
  match st key with
  | none => none
  | some e => if now < e.expiresAt then some e.data else none

/-- Embedding of `cacheSchema.statics.set`: upsert the document under `key`
with `expiresAt = now + ttlSeconds * 1000`. -/
def Cache.set {α : Type} (st : CacheSt α) (key : String) (data : α)
    (ttlSeconds : Nat) (now : Nat) : CacheSt α :=
  fun k =>
    if k = key then
      some { data := data, expiresAt := now + ttlSeconds * 1000, createdAt := now }
    else st k

/-! ## MoySklad service (src/services/moysklad.service.js) -/

/-- Prefix test for character lists, mirroring JS `String.prototype.startsWith`
restricted to the character-list view used below. -/
def listStarts : List Char → List Char → Bool
  | _, [] => true
  | [], _ :: _ => false
  | a :: as, b :: bs => a == b && listStarts as bs

/-- Substring test mirroring JS `String.prototype.includes`: the second
argument occurs contiguously inside the first. -/
def strIncludes : List Char → List Char → Bool
  | [], needle => needle.isEmpty
  | c :: rest, needle => listStarts (c :: rest) needle || strIncludes rest needle

/-- A row of the counterparty search response (`/entity/counterparty?filter=phone~…`). -/
structure SearchRow where
  id : String
  name : String
  phone : Option String
deriving DecidableEq

/-- The record returned by `findCounterpartyByPhone`. -/
structure BasicInfo where
  id : String
  name : String
  phone : String
  balance : Rat
  status : String
deriving DecidableEq

/-- The counterparty detail response (`/entity/counterparty/{id}`): identifier,
name, optional phone, archived flag, and the balances of the embedded
`accounts` array (minor currency units). -/
structure CounterpartyRaw where
  id : String
  name : String
  phone : Option String
  archived : Bool
  accounts : List Int
deriving DecidableEq

/-- A row of the aggregate balance report (`/report/counterparty`): the href of
the row's counterparty and its optional balance in minor units. -/
structure ReportRow where
  counterpartyHref : String
  balance : Option Int
deriving DecidableEq

/-- Network environment for `getCounterpartyDetails`: `none` models a non-2xx
response or a network failure of the corresponding call. -/
structure DetailsEnv where
  detailResp : Option CounterpartyRaw
  reportResp : Option (List ReportRow)
deriving DecidableEq

/-- The normalized record produced by `getCounterpartyDetails`. -/
structure CounterpartyInfo where
  id : String
  name : String
  phone : String
  balance : Rat
  status : String
  isBlocked : Bool
deriving DecidableEq

/-- Embedding of `findCounterpartyByPhone`: an empty phone throws (caught as
`null`), a failed search degrades to `null`, an empty row set yields `null`,
and otherwise the first row is returned with balance 0 and status unknown. -/
def findCounterpartyByPhone (phone : String)
    (searchResp : Option (List SearchRow)) : Option BasicInfo :=
  if phone = "" then none
  else
    match searchResp with
    | none => none
    | some rows =>
      match rows.head? with
      | none => none
      | some counterparty =>
        some { id := counterparty.id, name := counterparty.name,
               phone := counterparty.phone.getD phone, balance := 0,
               status := "unknown" }

/-- Embedding of `getCounterpartyDetails`: fetch the counterparty (null on
failure), then the aggregate report; on report failure fall back to
`accounts[0].balance || 0`, otherwise take the matching report row's balance
(falling back to the accounts balance when no row matches); divide minor
units by 100 and derive the status from the sign. -/
def getCounterpartyDetails (counterpartyId : String) (env : DetailsEnv) :
    Option CounterpartyInfo :=
  if counterpartyId = "" then none
  else
    match env.detailResp with
    | none => none
    | some cp =>
      let isBlocked := cp.archived
      match env.reportResp with
      | none =>
        let balance : Int := cp.accounts.head?.getD 0
        let balanceKopeks : Rat := (balance : Rat) / 100
        some { id := cp.id, name := cp.name, phone := cp.phone.getD "",
               balance := balanceKopeks,
               status := if balanceKopeks < 0 then "debtor"
                         else if 0 < balanceKopeks then "creditor" else "ok",
               isBlocked := isBlocked }
      | some rows =>
        let counterpartyReport := rows.find?
          (fun row => strIncludes row.counterpartyHref.toList counterpartyId.toList)
        let balance : Rat :=
          match counterpartyReport with
          | some row => ((row.balance.getD 0 : Int) : Rat) / 100
          | none => ((cp.accounts.head?.getD 0 : Int) : Rat) / 100
        let status := if balance < 0 then "debtor"
                      else if 0 < balance then "creditor" else "ok"
        some { id := cp.id, name := cp.name, phone := cp.phone.getD "",
               balance := balance, status := status, isBlocked := isBlocked }

/-- The raw minor-unit balance that `getCounterpartyDetails` reads from the
external API before the single division by 100: the matching report row's
balance when the report succeeded and a row matches, and the first embedded
account balance otherwise (0 when absent). -/
def detailRawBalance (counterpartyId : String) (env : DetailsEnv) : Int :=
  match env.detailResp with
  | none => 0
  | some cp =>
    match env.reportResp with
    | none => cp.accounts.head?.getD 0
    | some rows =>
      match rows.find?
          (fun row => strIncludes row.counterpartyHref.toList counterpartyId.toList) with
      | some row => row.balance.getD 0
      | none => cp.accounts.head?.getD 0

/-- Network environment for `getCounterpartyByPhone`: the search response and
the detail/report environment. -/
structure LookupEnv where
  searchResp : Option (List SearchRow)
  details : DetailsEnv
deriving DecidableEq

/-- Embedding of `getCounterpartyByPhone(phone, useCache)`: consult the cache
under `counterparty:{phone}` when `useCache` is set, otherwise resolve the
counterparty by phone, fetch its details, and (only when `useCache` is set)
write the result back with the service's 300-second TTL. The returned pair is
the lookup result and the cache collection after the call. -/
def getCounterpartyByPhone (phone : String) (useCache : Bool) (env : LookupEnv)
    (cache : CacheSt CounterpartyInfo) (now : Nat) :
    Option CounterpartyInfo × CacheSt CounterpartyInfo :=
  let cacheKey := "counterparty:" ++ phone
  let cached := if useCache then Cache.get cache cacheKey now else none
  match cached with
  | some c => (some c, cache)
  | none =>
    match findCounterpartyByPhone phone env.searchResp with
    | none => (none, cache)
    | some basicInfo =>
      if basicInfo.id = "" then (none, cache)
      else
        match getCounterpartyDetails basicInfo.id env.details with
        | some fullDetails =>
          if useCache then
            (some fullDetails, Cache.set cache cacheKey fullDetails 300 now)
          else (some fullDetails, cache)
        | none => (none, cache)

/-- The cache-free slice of `getCounterpartyByPhone`: the composition of the
two network calls alone (counterparty search, then detail/balance fetch). -/
def networkLookup (phone : String) (env : LookupEnv) : Option CounterpartyInfo :=
  match findCounterpartyByPhone phone env.searchResp with
  | none => none
  | some basicInfo =>
    if basicInfo.id = "" then none
    else getCounterpartyDetails basicInfo.id env.details

/-! ## Rate limiter (src/utils/rateLimiter.js) -/

/-- Mutable state of the `processQueue` drain loop: the current wall clock
(milliseconds), `sentInCurrentSecond`, and `currentSecondStart`. -/
structure RLState where
  time : Nat
  sent : Nat
  windowStart : Nat
deriving DecidableEq

/-- A queued unit of work: how long `await task()` takes and whether it
returns a value or throws. -/
structure RLTask (ε α : Type) where
  dur : Nat
  res : Except ε α

/-- One iteration of the `processQueue` loop body: reset the per-second
counter when a second has elapsed, sleep to the next second when the cap is
reached, dispatch the task (recording the dispatch time), resolve or reject
with its outcome (incrementing the counter only on success, exactly as the
source places the increment inside the `try`), then sleep 40 ms. -/
def RateLimiter.step {ε α : Type} (maxPerSecond : Nat) (st : RLState)
    (t : RLTask ε α) : RLState × Nat × Except ε α :=
  let elapsed := st.time - st.windowStart
  let st1 : RLState :=
    if 1000 ≤ elapsed then { time := st.time, sent := 0, windowStart := st.time }
    else st
  let st2 : RLState :=
    if maxPerSecond ≤ st1.sent then
      { time := st1.time + (1000 - elapsed), sent := 0,
        windowStart := st1.time + (1000 - elapsed) }
    else st1
  match t.res with
  | Except.ok a =>
    ({ time := st2.time + t.dur + 40, sent := st2.sent + 1,
       windowStart := st2.windowStart }, st2.time, Except.ok a)
  | Except.error e =>
    ({ time := st2.time + t.dur + 40, sent := st2.sent,
       windowStart := st2.windowStart }, st2.time, Except.error e)

/-- The `processQueue` drain loop over a queue of tasks, returning for each
task its dispatch time and the outcome delivered to that task's submitter. -/
def RateLimiter.processQueue {ε α : Type} (maxPerSecond : Nat) :
    RLState → List (RLTask ε α) → List (Nat × Except ε α)
  | _, [] => []
  | st, t :: ts =>
    let r := RateLimiter.step maxPerSecond st t
    (r.2.1, r.2.2) :: RateLimiter.processQueue maxPerSecond r.1 ts

/-- A no-op task: zero duration, successful unit result. -/
def noopTask : RLTask Unit Unit := { dur := 0, res := Except.ok () }

/-- One hundred no-op tasks drained by a fresh limiter (constructor state:
counter 0, window started at the construction instant, here time 0) at the
default cap of 25 per second. -/
def noopRun : List (Nat × Except Unit Unit) :=
  RateLimiter.processQueue 25 { time := 0, sent := 0, windowStart := 0 }
    (List.replicate 100 noopTask)

/-! ## Debt reminder sweep (scheduler file, DebtReminderSender) -/

/-- The per-user outcome of `processUser`: `success debtAmount` for a sent
reminder, `failure reason` otherwise, with the reason strings used by the
source (`inactive`, `not_found`, `no_debt`, `send_failed`). -/
inductive ProcessResult where
  | success : Rat → ProcessResult
  | failure : String → ProcessResult
deriving DecidableEq

/-- A registered bot user as the sweep sees it. -/
structure BotUser where
  telegram_id : String
  phone : String
  is_active : Bool
  language : String
  last_sent_at : Option Nat
deriving DecidableEq

/-- Embedding of `DebtReminderSender.processUser`: skip inactive users, look
the user's phone up in MoySklad (`lookup` is the result of
`getCounterpartyByPhone`), report `not_found` on a null counterparty,
`no_debt` on a non-negative balance, and otherwise attempt the rate-limited
send (`sendOk` tells whether it succeeds), updating `last_sent_at` on
success. -/
def DebtReminderSender.processUser (user : BotUser)
    (lookup : Option CounterpartyInfo) (sendOk : Bool) (now : Nat) :
    ProcessResult × BotUser :=
  if ¬ user.is_active then (ProcessResult.failure "inactive", user)
  else
    match lookup with
    | none => (ProcessResult.failure "not_found", user)
    | some counterparty =>
      if 0 ≤ counterparty.balance then (ProcessResult.failure "no_debt", user)
      else
        if sendOk then
          (ProcessResult.success |counterparty.balance|,
           { user with last_sent_at := some now })
        else (ProcessResult.failure "send_failed", user)

/-- The sweep's summary counters. -/
structure SweepCounts where
  sent : Nat
  skipped : Nat
  failed : Nat
deriving DecidableEq

/-- The counting performed by `DebtReminderSender.execute` over the per-user
results: success increments `sent`, reasons `no_debt` and `inactive`
increment `skipped`, every other reason increments `failed`. -/
def DebtReminderSender.countResults (rs : List ProcessResult) : SweepCounts :=
  rs.foldl
    (fun acc r =>
      match r with
      | ProcessResult.success _ => { acc with sent := acc.sent + 1 }
      | ProcessResult.failure reason =>
        if reason = "no_debt" ∨ reason = "inactive" then
          { acc with skipped := acc.skipped + 1 }
        else { acc with failed := acc.failed + 1 })
    { sent := 0, skipped := 0, failed := 0 }

/-- The summary bucket `execute` places one per-user result into. -/
def DebtReminderSender.classify (r : ProcessResult) : String :=
  match r with
  | ProcessResult.success _ => "sent"
  | ProcessResult.failure reason =>
    if reason = "no_debt" ∨ reason = "inactive" then "skipped" else "failed"

/-- Inputs of one scheduler tick: the current HH:mm time, the configured
global send time, and the active users with each one's MoySklad lookup
result and Telegram send success flag. -/
structure SweepEnv where
  currentTime : String
  globalSendTime : String
  users : List (BotUser × Option CounterpartyInfo × Bool)

/-- The visible outcome of one tick of `DebtReminderSender.execute`. -/
inductive SweepOutcome where
  | skippedBusy : SweepOutcome
  | timeMismatch : SweepOutcome
  | ran : SweepCounts → Nat → List ProcessResult → SweepOutcome
deriving DecidableEq

/-- Embedding of `DebtReminderSender.execute`: the re-entrancy guard skips
the tick when a sweep is still running; a time mismatch is a no-op;
otherwise every user is processed and counted. The second component lists
the telegram ids that actually received a reminder during the tick. -/
def DebtReminderSender.execute (isRunning : Bool) (env : SweepEnv) (now : Nat) :
    SweepOutcome × List String :=
  if isRunning then (SweepOutcome.skippedBusy, [])
  else if env.currentTime ≠ env.globalSendTime then (SweepOutcome.timeMismatch, [])
  else
    let results := env.users.map
      (fun u => (DebtReminderSender.processUser u.1 u.2.1 u.2.2 now).1)
    let delivered := env.users.filterMap
      (fun u =>
        match (DebtReminderSender.processUser u.1 u.2.1 u.2.2 now).1 with
        | ProcessResult.success _ => some u.1.telegram_id
        | ProcessResult.failure _ => none)
    (SweepOutcome.ran (DebtReminderSender.countResults results)
      env.users.length results, delivered)

/-- A concrete active user, for counterexamples and witnesses. -/
def demoUser : BotUser :=
  { telegram_id := "42", phone := "+998901234567", is_active := true,
    language := "uz", last_sent_at := none }

/-! ### Helper lemmas about digit lists -/

theorem digitsOf_mem_isDigit (p : String) : ∀ c ∈ digitsOf p, c.isDigit = true :=
  fun c hc => (List.mem_filter.mp hc).2

theorem digitsOf_filter_self (p : String) :
    (digitsOf p).filter (fun c => c.isDigit) = digitsOf p :=
  List.filter_eq_self.mpr (digitsOf_mem_isDigit p)

theorem digitsOf_mk_plus (p : String) :
    digitsOf (String.mk ('+' :: digitsOf p)) = digitsOf p := by
  show ('+' :: digitsOf p).filter (fun c => c.isDigit) = digitsOf p
  rw [List.filter_cons]
  simp [digitsOf_filter_self p]

theorem digitsOf_mk_plus998 (p : String) :
    digitsOf (String.mk ('+' :: '9' :: '9' :: '8' :: digitsOf p)) =
      '9' :: '9' :: '8' :: digitsOf p := by
  show ('+' :: '9' :: '9' :: '8' :: digitsOf p).filter (fun c => c.isDigit) =
    '9' :: '9' :: '8' :: digitsOf p
  rw [List.filter_cons, List.filter_cons, List.filter_cons, List.filter_cons]
  simp [digitsOf_filter_self p]

theorem digitsOf_take_one_ne_plus (p : String) :
    ¬ ((digitsOf p).take 1 = ['+']) := by
  cases hd : digitsOf p with
  | nil => simp
  | cons c cs =>
    simp only [List.take_succ_cons, List.take_zero]
    intro hcontra
    have hc : c = '+' := by simpa using hcontra
    have hmem : c ∈ digitsOf p := by rw [hd]; exact List.mem_cons_self c cs
    have := digitsOf_mem_isDigit p c hmem
    rw [hc] at this
    simp [Char.isDigit] at this

/-! ## Claim theorems -/

/-- C10: `User.normalizePhone` is idempotent: normalizing an already
normalized phone string returns it unchanged. -/
theorem normalizePhone_idempotent (p : String) :
    User.normalizePhone (User.normalizePhone p) = User.normalizePhone p := by
  by_cases h1 : (digitsOf p).take 3 = ['9', '9', '8']
  · have hp : User.normalizePhone p = String.mk ('+' :: digitsOf p) := by
      unfold User.normalizePhone
      rw [if_pos h1]
    rw [hp]
    unfold User.normalizePhone
    rw [digitsOf_mk_plus, if_pos h1]
  · by_cases h2 : (digitsOf p).length = 9
    · have hp : User.normalizePhone p =
          String.mk ('+' :: '9' :: '9' :: '8' :: digitsOf p) := by
        unfold User.normalizePhone
        rw [if_neg h1, if_pos h2]
      rw [hp]
      unfold User.normalizePhone
      rw [digitsOf_mk_plus998]
      simp
    · have h3 := digitsOf_take_one_ne_plus p
      have hp : User.normalizePhone p = String.mk ('+' :: digitsOf p) := by
        unfold User.normalizePhone
        rw [if_neg h1, if_neg h2, if_pos h3]
      rw [hp]
      unfold User.normalizePhone
      rw [digitsOf_mk_plus, if_neg h1, if_neg h2, if_pos h3]

/-- C4, counterexample: the input `"998 12"` consists of digits and spaces
and has the leading country prefix 998, yet its normalization `"+99812"`
does not match the fixed-length pattern, because the claim as stated puts no
bound on the number of national digits. -/
theorem normalizePhone_pattern_cex :
    (∀ c ∈ ("998 12" : String).toList, allowedPhoneChar c = true) ∧
    (digitsOf "998 12").take 3 = ['9', '9', '8'] ∧
    User.normalizePhone "998 12" = "+99812" ∧
    matchesUzPhone (User.normalizePhone "998 12") = false :=
  ⟨by decide, by decide, by decide, by decide⟩

/-- C4, amended: for inputs of digits, spaces, dashes, parentheses or a plus
sign whose digit sequence starts with the 998 prefix and carries exactly
nine national digits (twelve digits in all), normalization yields `+` in
front of the digits and the result matches the pattern; and for all-digit
inputs of exactly nine digits whose digits do not start with 998,
normalization prepends `+998` and the result matches the pattern. -/
theorem normalizePhone_canonical (p : String)
    (hchars : ∀ c ∈ p.toList, allowedPhoneChar c = true) :
    ((digitsOf p).take 3 = ['9', '9', '8'] → (digitsOf p).length = 12 →
      User.normalizePhone p = String.mk ('+' :: digitsOf p) ∧
      matchesUzPhone (User.normalizePhone p) = true) ∧
    (¬ ((digitsOf p).take 3 = ['9', '9', '8']) →
      (∀ c ∈ p.toList, c.isDigit = true) → p.toList.length = 9 →
      User.normalizePhone p = String.mk ('+' :: '9' :: '9' :: '8' :: p.toList) ∧
      matchesUzPhone (User.normalizePhone p) = true) := by
  constructor
  · intro h1 hlen
    have hnorm : User.normalizePhone p = String.mk ('+' :: digitsOf p) := by
      unfold User.normalizePhone
      rw [if_pos h1]
    refine ⟨hnorm, ?_⟩
    rw [hnorm]
    have htl : (String.mk ('+' :: digitsOf p)).toList = '+' :: digitsOf p := rfl
    unfold matchesUzPhone
    rw [htl]
    have htake : ('+' :: digitsOf p).take 4 = '+' :: (digitsOf p).take 3 := rfl
    have hdrop : ('+' :: digitsOf p).drop 4 = (digitsOf p).drop 3 := rfl
    rw [htake, hdrop, h1]
    simp only [List.length_cons, hlen, List.all_eq_true]
    simp only [Nat.reduceAdd, beq_self_eq_true, Bool.true_and, Bool.and_eq_true,
      beq_iff_eq, List.cons.injEq, true_and, List.all_eq_true]
    intro c hc
    exact digitsOf_mem_isDigit p c (List.mem_of_mem_drop hc)
  · intro h1 hall hlen
    have he : digitsOf p = p.toList := List.filter_eq_self.mpr hall
    have h2 : (digitsOf p).length = 9 := by rw [he]; exact hlen
    have hnorm : User.normalizePhone p =
        String.mk ('+' :: '9' :: '9' :: '8' :: digitsOf p) := by
      unfold User.normalizePhone
      rw [if_neg h1, if_pos h2]
    refine ⟨by rw [hnorm, he], ?_⟩
    rw [hnorm, he]
    have htl : (String.mk ('+' :: '9' :: '9' :: '8' :: p.toList)).toList =
        '+' :: '9' :: '9' :: '8' :: p.toList := rfl
    unfold matchesUzPhone
    rw [htl]
    have htake : ('+' :: '9' :: '9' :: '8' :: p.toList).take 4 =
        ['+', '9', '9', '8'] := rfl
    have hdrop : ('+' :: '9' :: '9' :: '8' :: p.toList).drop 4 = p.toList := rfl
    rw [htake, hdrop]
    simp only [List.length_cons, hlen, List.all_eq_true]
    simp only [Nat.reduceAdd, beq_self_eq_true, Bool.true_and, Bool.and_eq_true,
      beq_iff_eq, true_and, List.all_eq_true]
    exact hall

/-- C4, witness: the amended theorem applied to the concrete Telegram-style
input with parentheses, spaces and dashes. -/
theorem normalizePhone_canonical_witness :
    matchesUzPhone (User.normalizePhone "+998 (97) 912-61-61") = true :=
  ((normalizePhone_canonical "+998 (97) 912-61-61" (by decide)).1
    (by decide) (by decide)).2

/-- C1: after `Cache.set key value ttl` at time `t0`, `Cache.get key` returns
`value` at any time strictly before the ttl elapses and returns `none` once
the ttl has elapsed; moreover `Cache.get` never returns an entry whose expiry
timestamp is not strictly in the future. -/
theorem cache_get_after_set {α : Type} (st : CacheSt α) (key : String) (v : α)
    (ttl t0 t : Nat) (hpos : 0 < ttl) :
    (t < t0 + ttl * 1000 → Cache.get (Cache.set st key v ttl t0) key t = some v) ∧
    (t0 + ttl * 1000 ≤ t → Cache.get (Cache.set st key v ttl t0) key t = none) ∧
    (∀ (st2 : CacheSt α) (k2 : String) (n2 : Nat) (d : α),
      Cache.get st2 k2 n2 = some d →
      ∃ e, st2 k2 = some e ∧ e.data = d ∧ n2 < e.expiresAt) := by
  refine ⟨?_, ?_, ?_⟩
  · intro hlt
    unfold Cache.get Cache.set
    simp [hlt]
  · intro hge
    unfold Cache.get Cache.set
    simp
    omega
  · intro st2 k2 n2 d hget
    unfold Cache.get at hget
    cases hst : st2 k2 with
    | none => simp only [hst] at hget; exact absurd hget (by simp)
    | some e =>
      simp only [hst] at hget
      by_cases hexp : n2 < e.expiresAt
      · rw [if_pos hexp] at hget
        exact ⟨e, rfl, Option.some.inj hget, hexp⟩
      · rw [if_neg hexp] at hget
        simp at hget

/-- C1, witness: a value set with a 300-second ttl at time 0 is still
returned at millisecond 299999 of the epoch. -/
theorem cache_get_after_set_witness :
    Cache.get (Cache.set (Cache.emptySt Nat) "counterparty:+998901234567" 7 300 0)
      "counterparty:+998901234567" 299999 = some 7 :=
  (cache_get_after_set (Cache.emptySt Nat) "counterparty:+998901234567" 7 300 0
    299999 (by decide)).1 (by decide)

/-- C2: with `useCache = false`, `getCounterpartyByPhone` never returns a
cached value: whatever the cache contains (including an unexpired entry for
`counterparty:{phone}`), the result equals the pure composition of the two
fresh network calls and the cache is left untouched. -/
theorem getCounterpartyByPhone_noCache (phone : String) (env : LookupEnv)
    (cache : CacheSt CounterpartyInfo) (now : Nat) :
    getCounterpartyByPhone phone false env cache now =
      (networkLookup phone env, cache) := by
  unfold getCounterpartyByPhone networkLookup
  simp only [Bool.false_eq_true, if_false]
  cases hf : findCounterpartyByPhone phone env.searchResp with
  | none => simp
  | some b =>
    by_cases hid : b.id = ""
    · simp [hid]
    · cases hd : getCounterpartyDetails b.id env.details with
      | none => simp [hid, hd]
      | some fd => simp [hid, hd]

theorem status_sign_iff (b : Rat) :
    ((if b < 0 then "debtor" else if 0 < b then "creditor" else "ok") = "debtor"
        ↔ b < 0) ∧
    ((if b < 0 then "debtor" else if 0 < b then "creditor" else "ok") = "creditor"
        ↔ 0 < b) ∧
    ((if b < 0 then "debtor" else if 0 < b then "creditor" else "ok") = "ok"
        ↔ b = 0) := by
  by_cases h1 : b < 0 <;> by_cases h2 : 0 < b <;>
    simp [h1, h2] <;> linarith

/-- C7: whenever `getCounterpartyDetails` returns a record, its balance is
the raw minor-unit balance received from the API divided by 100 exactly
once, and its status is debtor, creditor or ok exactly when that balance is
negative, positive or zero. -/
theorem getCounterpartyDetails_balance_status (counterpartyId : String)
    (env : DetailsEnv) (info : CounterpartyInfo)
    (h : getCounterpartyDetails counterpartyId env = some info) :
    info.balance = (detailRawBalance counterpartyId env : Rat) / 100 ∧
    (info.status = "debtor" ↔ info.balance < 0) ∧
    (info.status = "creditor" ↔ 0 < info.balance) ∧
    (info.status = "ok" ↔ info.balance = 0) := by
  unfold getCounterpartyDetails at h
  by_cases hid : counterpartyId = ""
  · rw [if_pos hid] at h; exact absurd h (by simp)
  rw [if_neg hid] at h
  unfold detailRawBalance
  cases hdet : env.detailResp with
  | none => simp only [hdet] at h; exact absurd h (by simp)
  | some cp =>
    simp only [hdet] at h ⊢
    cases hrep : env.reportResp with
    | none =>
      simp only [hrep] at h ⊢
      have hinfo := Option.some.inj h
      subst hinfo
      exact ⟨rfl, status_sign_iff _⟩
    | some rows =>
      simp only [hrep] at h ⊢
      cases hfind : rows.find?
          (fun row => strIncludes row.counterpartyHref.toList counterpartyId.toList) with
      | none =>
        simp only [hfind] at h ⊢
        have hinfo := Option.some.inj h
        subst hinfo
        exact ⟨rfl, status_sign_iff _⟩
      | some row =>
        simp only [hfind] at h ⊢
        have hinfo := Option.some.inj h
        subst hinfo
        exact ⟨rfl, status_sign_iff _⟩

/-- C7, witness: a counterparty whose report row carries minor-unit balance
-5000000 comes back with balance -50000 and status debtor. -/
theorem getCounterpartyDetails_balance_status_witness :
    ((-50000 : Rat) =
      (detailRawBalance "abc"
        ⟨some ⟨"abc", "Foo", some "+998901234567", false, [-5000000]⟩, some []⟩ : Rat)
        / 100) ∧ ((-50000 : Rat) < 0) := by
  have h := getCounterpartyDetails_balance_status "abc"
    ⟨some ⟨"abc", "Foo", some "+998901234567", false, [-5000000]⟩, some []⟩
    ⟨"abc", "Foo", "+998901234567", -50000, "debtor", false⟩
    (by
      norm_num [getCounterpartyDetails, List.find?]
      intro hc
      exact absurd hc (by decide))
  exact ⟨h.1, h.2.1.mp rfl⟩

/-- C8: when the counterparty detail fetch succeeds but the aggregate report
endpoint fails, `getCounterpartyDetails` does not return null: it returns
the record whose balance comes from the embedded `accounts[0].balance`
(defaulting to 0 when absent) divided by 100, with the status derived from
that fallback balance. -/
theorem getCounterpartyDetails_report_fallback (counterpartyId : String)
    (env : DetailsEnv) (cp : CounterpartyRaw) (h1 : ¬ (counterpartyId = ""))
    (h2 : env.detailResp = some cp) (h3 : env.reportResp = none) :
    getCounterpartyDetails counterpartyId env =
      some { id := cp.id, name := cp.name, phone := cp.phone.getD "",
             balance := ((cp.accounts.head?.getD 0 : Int) : Rat) / 100,
             status :=
               if ((cp.accounts.head?.getD 0 : Int) : Rat) / 100 < 0 then "debtor"
               else if 0 < ((cp.accounts.head?.getD 0 : Int) : Rat) / 100 then
                 "creditor"
               else "ok",
             isBlocked := cp.archived } := by
  unfold getCounterpartyDetails
  rw [if_neg h1]
  simp only [h2, h3]

/-- C8, witness: detail fetch ok, report endpoint down, embedded account
balance -5000000 minor units: the lookup still returns a record, with
balance -50000 and status debtor. -/
theorem getCounterpartyDetails_report_fallback_witness :
    getCounterpartyDetails "abc"
      ⟨some ⟨"abc", "Foo", some "+998901234567", false, [-5000000]⟩, none⟩ =
      some ⟨"abc", "Foo", "+998901234567", -50000, "debtor", false⟩ := by
  have h := getCounterpartyDetails_report_fallback "abc"
    ⟨some ⟨"abc", "Foo", some "+998901234567", false, [-5000000]⟩, none⟩
    ⟨"abc", "Foo", some "+998901234567", false, [-5000000]⟩
    (by decide) rfl rfl
  rw [h]
  norm_num

theorem RateLimiter.step_res {ε α : Type} (maxPerSecond : Nat) (st : RLState)
    (t : RLTask ε α) : (RateLimiter.step maxPerSecond st t).2.2 = t.res := by
  unfold RateLimiter.step
  cases h : t.res <;> simp [h]

theorem processQueue_map_res {ε α : Type} (maxPerSecond : Nat) (st : RLState)
    (ts : List (RLTask ε α)) :
    (RateLimiter.processQueue maxPerSecond st ts).map Prod.snd =
      ts.map RLTask.res := by
  induction ts generalizing st with
  | nil => rfl
  | cons t ts ih =>
    unfold RateLimiter.processQueue
    simp only [List.map_cons, List.cons.injEq]
    exact ⟨RateLimiter.step_res maxPerSecond st t, ih _⟩

/-- C6: for every sequence of submitted tasks, the drain loop settles each
task's own promise with that task's own outcome (value or thrown error), and
a throwing task neither aborts the loop nor prevents any later task from
being dispatched: exactly one dispatch per submitted task. -/
theorem processQueue_outcome_isolation {ε α : Type} (maxPerSecond : Nat)
    (st : RLState) (ts : List (RLTask ε α)) :
    (RateLimiter.processQueue maxPerSecond st ts).map Prod.snd =
      ts.map RLTask.res ∧
    (RateLimiter.processQueue maxPerSecond st ts).length = ts.length := by
  refine ⟨processQueue_map_res maxPerSecond st ts, ?_⟩
  have h := congrArg List.length (processQueue_map_res maxPerSecond st ts)
  simpa using h

theorem noopRun_times : noopRun.map Prod.fst = (List.range 100).map (fun i => 40 * i) := rfl

theorem nodup_length_le_Icc (l : List Nat) (a b : Nat) (hnd : l.Nodup)
    (hsub : ∀ i ∈ l, i ∈ Finset.Icc a b) : l.length ≤ b + 1 - a := by
  have h1 : l.toFinset.card = l.length := List.toFinset_card_of_nodup hnd
  have h2 : l.toFinset ⊆ Finset.Icc a b := fun i hi => hsub i (List.mem_toFinset.mp hi)
  have h3 := Finset.card_le_card h2
  rw [Nat.card_Icc] at h3
  omega

theorem window_bound (t : Nat) :
    ((List.range 100).map (fun i => 40 * i)).countP
      (fun x => decide (t ≤ x) && decide (x < t + 1000)) ≤ 25 := by
  rw [List.countP_map, List.countP_eq_length_filter]
  refine le_trans (nodup_length_le_Icc _ ((t + 39) / 40) ((t + 39) / 40 + 24)
    ((List.nodup_range 100).filter _) ?_) (by omega)
  intro i hi
  have hp := List.of_mem_filter hi
  simp only [Function.comp_apply, Bool.and_eq_true, decide_eq_true_eq] at hp
  obtain ⟨hle, hlt⟩ := hp
  have hlow : (t + 39) / 40 ≤ i := by
    have hdd : (t + 39) / 40 ≤ (40 * i + 39) / 40 := Nat.div_le_div_right (by omega)
    have heq : (40 * i + 39) / 40 = i := by
      rw [Nat.mul_add_div (by norm_num)]
      norm_num
    omega
  have hhigh : i ≤ (t + 39) / 40 + 24 := by
    have hdd : (40 * i) / 40 ≤ (t + 999) / 40 := Nat.div_le_div_right (by omega)
    have heq1 : (40 * i) / 40 = i := Nat.mul_div_cancel_left i (by norm_num)
    have heq2 : (t + 999) / 40 = (t + 39) / 40 + 24 := by
      have h40 : t + 999 = t + 39 + 24 * 40 := by omega
      rw [h40, Nat.add_mul_div_right _ _ (by norm_num : (0 : Nat) < 40)]
    omega
  exact Finset.mem_Icc.mpr ⟨hlow, hhigh⟩

/-- C5: one hundred no-op tasks submitted to a fresh limiter with the
default cap of 25 per second are all dispatched and all settled
successfully, and every rolling one-second window contains at most 25
dispatches. -/
theorem rateLimiter_hundred_noops :
    noopRun.length = 100 ∧
    noopRun.map Prod.snd = List.replicate 100 (Except.ok ()) ∧
    (∀ t : Nat,
      noopRun.countP (fun d => decide (t ≤ d.1) && decide (d.1 < t + 1000)) ≤ 25) := by
  refine ⟨rfl, rfl, ?_⟩
  intro t
  have hc : noopRun.countP (fun d => decide (t ≤ d.1) && decide (d.1 < t + 1000)) =
      (noopRun.map Prod.fst).countP
        (fun x => decide (t ≤ x) && decide (x < t + 1000)) := by
    rw [List.countP_map]
    rfl
  rw [hc, noopRun_times]
  exact window_bound t

/-- C9: a scheduler tick that fires while the in-progress flag is still set
performs no user processing and sends no reminders: the tick is skipped
entirely, so a sweep never overlaps a running sweep. -/
theorem execute_reentrancy_guard (env : SweepEnv) (now : Nat) :
    DebtReminderSender.execute true env now = (SweepOutcome.skippedBusy, []) := rfl

/-- C3, counterexample: an active user whose phone has no matching
counterparty yields outcome `not_found`, which `execute` counts in the
sweep's failed total (sent 0, skipped 0, failed 1) — not in its skipped
total as the claim states. -/
theorem sweep_not_found_cex :
    (DebtReminderSender.processUser demoUser none true 0).1 =
      ProcessResult.failure "not_found" ∧
    DebtReminderSender.classify
      (DebtReminderSender.processUser demoUser none true 0).1 = "failed" ∧
    (DebtReminderSender.execute false ⟨"09:00", "09:00", [(demoUser, none, true)]⟩ 0).1 =
      SweepOutcome.ran ⟨0, 0, 1⟩ 1 [ProcessResult.failure "not_found"] ∧
    ¬ ((DebtReminderSender.execute false ⟨"09:00", "09:00", [(demoUser, none, true)]⟩ 0).1 =
      SweepOutcome.ran ⟨0, 1, 0⟩ 1 [ProcessResult.failure "not_found"]) :=
  ⟨by decide, by decide, by decide, by decide⟩

/-- C3, amended: every processed user's outcome is exactly one of sent,
skipped(inactive), skipped(no_debt), failed(not_found) or
failed(send_error); in particular an active user whose phone has no
matching counterparty gets outcome `not_found` and is counted among the
sweep's failed total, not its skipped total. -/
theorem processUser_outcome_classes (user : BotUser)
    (lookup : Option CounterpartyInfo) (sendOk : Bool) (now : Nat) :
    ((∃ d, (DebtReminderSender.processUser user lookup sendOk now).1 =
          ProcessResult.success d) ∨
      (DebtReminderSender.processUser user lookup sendOk now).1 =
          ProcessResult.failure "inactive" ∨
      (DebtReminderSender.processUser user lookup sendOk now).1 =
          ProcessResult.failure "no_debt" ∨
      (DebtReminderSender.processUser user lookup sendOk now).1 =
          ProcessResult.failure "not_found" ∨
      (DebtReminderSender.processUser user lookup sendOk now).1 =
          ProcessResult.failure "send_failed") ∧
    (user.is_active = true → lookup = none →
      (DebtReminderSender.processUser user lookup sendOk now).1 =
          ProcessResult.failure "not_found" ∧
      DebtReminderSender.classify
        (DebtReminderSender.processUser user lookup sendOk now).1 = "failed") := by
  unfold DebtReminderSender.processUser
  cases hb : user.is_active with
  | false =>
    constructor
    · right; left; simp
    · intro h1 _
      exact absurd h1 (by decide)
  | true =>
    cases lookup with
    | none =>
      constructor
      · right; right; right; left; simp
      · intro _ _
        refine ⟨by simp, ?_⟩
        simp [DebtReminderSender.classify]
    | some cp =>
      constructor
      · by_cases hbal : 0 ≤ cp.balance
        · right; right; left; simp [hbal]
        · cases hs : sendOk with
          | true => left; exact ⟨|cp.balance|, by simp [hbal]⟩
          | false => right; right; right; right; simp [hbal]
      · intro _ h2
        exact absurd h2 (by simp)

/-- C3, witness: the amended theorem applied to a concrete active user with
no matching counterparty. -/
theorem processUser_outcome_classes_witness :
    (DebtReminderSender.processUser demoUser none true 0).1 =
      ProcessResult.failure "not_found" ∧
    DebtReminderSender.classify
      (DebtReminderSender.processUser demoUser none true 0).1 = "failed" :=
  (processUser_outcome_classes demoUser none true 0).2 rfl rfl
